import Mathlib

/-!
Shallow embedding of the webdis gateway (Rust rewrite) core:
ACL evaluation (src/acl.rs), HTTP request dispatch (src/handler.rs),
output formatting (src/format.rs), pub/sub multiplexing (src/pubsub.rs),
WebSocket frame handling (src/websocket.rs) and pool construction
(src/redis.rs), together with theorems settling the specification's
claims about them.

Byte strings are `List Nat` (each element a byte value); Rust `String`
values that only flow through parsing are kept as Lean `String` and
converted to bytes with `strBytes` at the wire boundary.
-/

namespace Webdis

/-- UTF-8 encoding of one character. -/
def utf8EncodeChar (c : Char) : List Nat :=
  let n := c.toNat
  if n < 0x80 then [n]
  else if n < 0x800 then [0xC0 + n / 64, 0x80 + n % 64]
  else if n < 0x10000 then
    [0xE0 + n / 4096, 0x80 + (n / 64) % 64, 0x80 + n % 64]
  else
    [0xF0 + n / 262144, 0x80 + (n / 4096) % 64, 0x80 + (n / 64) % 64, 0x80 + n % 64]

/-- Bytes of a string: UTF-8 encoding of its characters. Mirrors how a
Rust `String` is viewed as its UTF-8 byte content. -/
def strBytes (s : String) : List Nat :=
  s.data.flatMap utf8EncodeChar

/-- ASCII lower-casing of one byte, as in Rust `u8::to_ascii_lowercase`. -/
def toLowerByte (b : Nat) : Nat :=
  if 65 ≤ b ∧ b ≤ 90 then b + 32 else b

/-- Case-insensitive ASCII equality of byte strings, as in Rust
`str::eq_ignore_ascii_case`. -/
def eqIgnoreAsciiCase (a b : List Nat) : Bool :=
  a.map toLowerByte == b.map toLowerByte

/-- Lower bound of the first continuation byte after a three-byte lead
(WHATWG UTF-8 decoder table, as implemented by Rust's std decoder). -/
def contLo3 (b : Nat) : Nat := if b = 0xE0 then 0xA0 else 0x80

/-- Upper bound of the first continuation byte after a three-byte lead. -/
def contHi3 (b : Nat) : Nat := if b = 0xED then 0x9F else 0xBF

/-- Lower bound of the first continuation byte after a four-byte lead. -/
def contLo4 (b : Nat) : Nat := if b = 0xF0 then 0x90 else 0x80

/-- Upper bound of the first continuation byte after a four-byte lead. -/
def contHi4 (b : Nat) : Nat := if b = 0xF4 then 0x8F else 0xBF

/-- The UTF-8 encoding of U+FFFD REPLACEMENT CHARACTER. -/
def replacementBytes : List Nat := [0xEF, 0xBF, 0xBD]

/-- State of the streaming WHATWG UTF-8 decoder: the bytes of the
current partial sequence, the number of continuation bytes still
expected, and the admissible range for the next byte. -/
structure Utf8State where
  pend : List Nat
  need : Nat
  lo : Nat
  hi : Nat
deriving DecidableEq, Repr

/-- Decoder state at a sequence boundary. -/
def utf8Init : Utf8State := ⟨[], 0, 0, 0⟩

/-- Process one byte in lead position: the bytes emitted at once, the
successor state, and whether the byte is a legal sequence start. -/
def utf8LeadByte (b : Nat) : List Nat × Utf8State × Bool :=
  if b ≤ 0x7F then ([b], utf8Init, true)
  else if 0xC2 ≤ b ∧ b ≤ 0xDF then ([], ⟨[b], 1, 0x80, 0xBF⟩, true)
  else if 0xE0 ≤ b ∧ b ≤ 0xEF then ([], ⟨[b], 2, contLo3 b, contHi3 b⟩, true)
  else if 0xF0 ≤ b ∧ b ≤ 0xF4 then ([], ⟨[b], 3, contLo4 b, contHi4 b⟩, true)
  else (replacementBytes, utf8Init, false)

/-- Byte-level effect of Rust `String::from_utf8_lossy`: run the WHATWG
streaming decoder, copying well-formed sequences and substituting
U+FFFD for each maximal invalid subpart (on a failing continuation byte
the partial sequence is replaced and the byte is reconsumed in lead
position, as Rust's std decoder does). -/
def utf8Run : Utf8State → List Nat → List Nat
  | s, [] => if s.need = 0 then [] else replacementBytes
  | s, b :: rest =>
    if s.need = 0 then
      let (out, s2, _) := utf8LeadByte b
      out ++ utf8Run s2 rest
    else if s.lo ≤ b ∧ b ≤ s.hi then
      if s.need = 1 then s.pend ++ [b] ++ utf8Run utf8Init rest
      else utf8Run ⟨s.pend ++ [b], s.need - 1, 0x80, 0xBF⟩ rest
    else
      let (out, s2, _) := utf8LeadByte b
      replacementBytes ++ out ++ utf8Run s2 rest

/-- Whether the remaining input is well-formed UTF-8 from state `s`. -/
def utf8RunValid : Utf8State → List Nat → Bool
  | s, [] => s.need == 0
  | s, b :: rest =>
    if s.need = 0 then
      let (_, s2, ok) := utf8LeadByte b
      ok && utf8RunValid s2 rest
    else if s.lo ≤ b ∧ b ≤ s.hi then
      if s.need = 1 then utf8RunValid utf8Init rest
      else utf8RunValid ⟨s.pend ++ [b], s.need - 1, 0x80, 0xBF⟩ rest
    else false

/-- Lossy UTF-8 decoding of a byte list, re-encoded as bytes. -/
def utf8Lossy (l : List Nat) : List Nat := utf8Run utf8Init l

/-- Validity of a byte list as UTF-8 (the inputs `String::from_utf8`
accepts). -/
def validUtf8 (l : List Nat) : Bool := utf8RunValid utf8Init l

/-- A legal lead byte contributes exactly itself, split between the
emitted output and the pending buffer, and never leaves an empty-needs
state with pending bytes. -/
theorem utf8LeadByte_ok {b : Nat} {out : List Nat} {s2 : Utf8State}
    (h : utf8LeadByte b = (out, s2, true)) :
    out ++ s2.pend = [b] ∧ (s2.need = 0 → s2.pend = []) := by
  rw [utf8LeadByte] at h
  repeat' split at h
  all_goals injection h with h1 h2
  all_goals injection h2 with h3 h4
  all_goals subst h1
  all_goals subst h3
  all_goals simp_all [utf8Init]

/-- From any boundary-consistent state, the decoder is the identity on
well-formed input (prefixed by the pending bytes). -/
theorem utf8Run_of_valid : ∀ (l : List Nat) (s : Utf8State),
    (s.need = 0 → s.pend = []) → utf8RunValid s l = true →
    utf8Run s l = s.pend ++ l := by
  intro l
  induction l with
  | nil =>
    intro s hp hv
    rw [utf8RunValid] at hv
    simp only [beq_iff_eq] at hv
    rw [utf8Run]
    simp [hv, hp hv]
  | cons b rest ih =>
    intro s hp hv
    rw [utf8RunValid] at hv
    rw [utf8Run]
    by_cases h0 : s.need = 0
    · simp only [h0, if_true, if_pos] at hv ⊢
      rcases hlb : utf8LeadByte b with ⟨out, s2, ok⟩
      dsimp only at hv ⊢
      simp only [Bool.and_eq_true] at hv
      obtain ⟨hok, hv2⟩ := hv
      rw [hlb] at hok hv2
      dsimp only at hok hv2
      subst hok
      rcases utf8LeadByte_ok hlb with ⟨happ, hinv⟩
      rw [ih s2 hinv hv2, hp h0, ← List.append_assoc, happ]
      rfl
    · simp only [h0, if_false, if_neg] at hv ⊢
      by_cases hb : s.lo ≤ b ∧ b ≤ s.hi
      · simp only [hb, if_true, if_pos] at hv ⊢
        by_cases h1 : s.need = 1
        · simp only [h1, if_true, if_pos] at hv ⊢
          rw [ih utf8Init (fun _ => rfl) hv]
          simp [utf8Init]
        · simp only [h1, if_false, if_neg] at hv ⊢
          rw [ih ⟨s.pend ++ [b], s.need - 1, 0x80, 0xBF⟩
            (fun hz => absurd (show s.need - 1 = 0 from hz) (by omega)) hv]
          simp
      · simp [hb] at hv

/-- On valid UTF-8 input the lossy decoder is the identity on bytes. -/
theorem utf8Lossy_of_valid (l : List Nat) (hv : validUtf8 l = true) :
    utf8Lossy l = l := by
  have h := utf8Run_of_valid l utf8Init (fun _ => rfl) hv
  simpa [utf8Lossy, utf8Init] using h

/-- Value of one base64 alphabet byte (standard alphabet). -/
def b64Val (c : Nat) : Option Nat :=
  if 65 ≤ c ∧ c ≤ 90 then some (c - 65)
  else if 97 ≤ c ∧ c ≤ 122 then some (c - 97 + 26)
  else if 48 ≤ c ∧ c ≤ 57 then some (c - 48 + 52)
  else if c = 43 then some 62
  else if c = 47 then some 63
  else none

/-- Standard base64 decoding with mandatory canonical padding and a
zero-trailing-bits requirement, as the `base64` crate's
`general_purpose::STANDARD` engine enforces: input length must be a
multiple of four, `=` appears only at the end of the final group, and
unused low bits of the last symbol must be zero. -/
def b64Decode : List Nat → Option (List Nat)
  | [] => some []
  | a :: b :: c :: d :: rest =>
    match b64Val a, b64Val b with
    | some va, some vb =>
      if c = 61 then
        if d = 61 ∧ rest = [] then
          if vb % 16 = 0 then some [va * 4 + vb / 16] else none
        else none
      else
        match b64Val c with
        | some vc =>
          if d = 61 then
            if rest = [] then
              if vc % 4 = 0 then
                some [va * 4 + vb / 16, (vb % 16) * 16 + vc / 4]
              else none
            else none
          else
            match b64Val d with
            | some vd =>
              match b64Decode rest with
              | some tl =>
                some ((va * 4 + vb / 16) :: ((vb % 16) * 16 + vc / 4) ::
                  ((vc % 4) * 64 + vd) :: tl)
              | none => none
            | none => none
        | none => none
    | _, _ => none
  | _ => none

/-- An IPv4 network in CIDR form: models `ipnet::IpNet` for the v4
addresses used throughout; `addr` is the 32-bit address as a number
and `maskBits` the prefix length. -/
structure IpNet where
  addr : Nat
  maskBits : Nat
deriving DecidableEq, Repr

/-- Subnet membership, as `ipnet::IpNet::contains` computes it. -/
def IpNet.contains (n : IpNet) (ip : Nat) : Bool :=
  ip / 2 ^ (32 - n.maskBits) == n.addr / 2 ^ (32 - n.maskBits)

/-- One ACL rule, as held by `AclRule` in src/acl.rs after
construction: optional subnet, optional required credential (the
unencoded `user:password` bytes), and the enabled/disabled command
lists. -/
structure AclRule where
  ipSubnet : Option IpNet
  basicAuth : Option (List Nat)
  enabled : List (List Nat)
  disabled : List (List Nat)
deriving DecidableEq

/-- The ACL: an ordered rule list (src/acl.rs `Acl`). -/
structure Acl where
  rules : List AclRule
deriving DecidableEq

/-- The credential-matching block of `Acl::check` (src/acl.rs lines
52-66): the header must exist, start with `Basic `, base64-decode,
be valid UTF-8 (Rust `String::from_utf8`), and equal the required
credential. -/
def authMatches (required : List Nat) (authHeader : Option (List Nat)) : Bool :=
  match authHeader with
  | none => false
  | some h =>
    if h.take 6 == strBytes "Basic " then
      match b64Decode (h.drop 6) with
      | some decoded => validUtf8 decoded && decoded == required
      | none => false
    else false

/-- Whether one rule matches the request, translated from the
imperative `matches` computation in `Acl::check`: `matches` starts
true, the subnet test may clear it, and a required credential then
OVERWRITES it with the outcome of the credential test. -/
def ruleMatches (ip : Nat) (authHeader : Option (List Nat)) (r : AclRule) : Bool :=
  let m1 := match r.ipSubnet with
    | some subnet => subnet.contains ip
    | none => true
  match r.basicAuth with
  | some required => authMatches required authHeader
  | none => m1

/-- Whether a `disabled`/`enabled` entry hits the command: wildcard or
ASCII-case-insensitive equality (src/acl.rs lines 70-81). -/
def entryHits (command e : List Nat) : Bool :=
  e == strBytes "*" || eqIgnoreAsciiCase e command

/-- Effect of one rule on the `allowed` accumulator in `Acl::check`:
if the rule matches, fold `disabled` (clearing) then `enabled`
(setting). -/
def applyRule (ip : Nat) (authHeader : Option (List Nat)) (command : List Nat)
    (allowed : Bool) (r : AclRule) : Bool :=
  if ruleMatches ip authHeader r then
    let a1 := r.disabled.foldl
      (fun acc e => if entryHits command e then false else acc) allowed
    r.enabled.foldl (fun acc e => if entryHits command e then true else acc) a1
  else allowed

/-- `Acl::check` (src/acl.rs lines 32-86): empty rule list allows
everything, otherwise fold the rules in declaration order starting
from `allowed = true`. -/
def Acl.check (acl : Acl) (ip : Nat) (command : List Nat)
    (authHeader : Option (List Nat)) : Bool :=
  if acl.rules = [] then true
  else acl.rules.foldl (applyRule ip authHeader command) true

/-- ACL evaluation exactly as claim C1 words it: a rule matches only if
its subnet (when present) contains the peer AND its credential (when
present) matches the header; `disabled` entries hit on `*` or
case-insensitive equality, `enabled` entries on `*` or (literal)
equality. Written from the claim, to be compared with `Acl.check`. -/
def aclCheckClaim (rules : List AclRule) (ip : Nat) (command : List Nat)
    (authHeader : Option (List Nat)) : Bool :=
  rules.foldl
    (fun allowed r =>
      let m :=
        (match r.ipSubnet with
          | some subnet => subnet.contains ip
          | none => true)
        && (match r.basicAuth with
          | some required => authMatches required authHeader
          | none => true)
      if m then
        let a1 := r.disabled.foldl
          (fun acc e =>
            if e == strBytes "*" || eqIgnoreAsciiCase e command then false
            else acc) allowed
        r.enabled.foldl
          (fun acc e =>
            if e == strBytes "*" || e == command then true else acc) a1
      else allowed)
    true

/-- ACL evaluation as claim C1 amended: when a rule requires a
credential, the credential test alone decides the match (it overwrites
the subnet test, as the code does), and `enabled` entries also compare
case-insensitively. -/
def aclCheckAmended (rules : List AclRule) (ip : Nat) (command : List Nat)
    (authHeader : Option (List Nat)) : Bool :=
  rules.foldl
    (fun allowed r =>
      let m :=
        match r.basicAuth with
        | some required => authMatches required authHeader
        | none =>
          match r.ipSubnet with
          | some subnet => subnet.contains ip
          | none => true
      if m then
        let a1 := r.disabled.foldl
          (fun acc e =>
            if e == strBytes "*" || eqIgnoreAsciiCase e command then false
            else acc) allowed
        r.enabled.foldl
          (fun acc e =>
            if e == strBytes "*" || eqIgnoreAsciiCase e command then true
            else acc) a1
      else allowed)
    true

/-- Claim C1 is refuted on two concrete inputs. First: a rule carrying
both subnet 10.0.0.0/8 and credential `u:p`; peer 192.168.1.1 is
outside the subnet yet the code lets the matching credential overwrite
the failed subnet test, re-enabling a command a prior rule disabled.
Second: an `enabled` entry `get` re-enables command `GET` although it
is not literally equal to it. In both cases the evaluator of the code
returns true where the claim's fold returns false. -/
theorem aclCheck_counterexample :
    (Acl.check
        ⟨[⟨none, none, [], [strBytes "*"]⟩,
          ⟨some ⟨10 * 2 ^ 24, 8⟩, some (strBytes "u:p"), [strBytes "*"], []⟩]⟩
        (192 * 2 ^ 24 + 168 * 2 ^ 16 + 256 + 1) (strBytes "GET")
        (some (strBytes "Basic dTpw")) = true
      ∧ aclCheckClaim
        [⟨none, none, [], [strBytes "*"]⟩,
          ⟨some ⟨10 * 2 ^ 24, 8⟩, some (strBytes "u:p"), [strBytes "*"], []⟩]
        (192 * 2 ^ 24 + 168 * 2 ^ 16 + 256 + 1) (strBytes "GET")
        (some (strBytes "Basic dTpw")) = false)
    ∧ (Acl.check
        ⟨[⟨none, none, [], [strBytes "*"]⟩, ⟨none, none, [strBytes "get"], []⟩]⟩
        0 (strBytes "GET") none = true
      ∧ aclCheckClaim
        [⟨none, none, [], [strBytes "*"]⟩, ⟨none, none, [strBytes "get"], []⟩]
        0 (strBytes "GET") none = false) := by
  decide

/-- Single rule steps of the code's fold and of the amended fold agree. -/
theorem applyRule_amended (ip : Nat) (authHeader : Option (List Nat))
    (command : List Nat) (allowed : Bool) (r : AclRule) :
    applyRule ip authHeader command allowed r =
      (fun allowed r =>
        let m :=
          match r.basicAuth with
          | some required => authMatches required authHeader
          | none =>
            match r.ipSubnet with
            | some subnet => subnet.contains ip
            | none => true
        if m then
          let a1 := r.disabled.foldl
            (fun acc e =>
              if e == strBytes "*" || eqIgnoreAsciiCase e command then false
              else acc) allowed
          r.enabled.foldl
            (fun acc e =>
              if e == strBytes "*" || eqIgnoreAsciiCase e command then true
              else acc) a1
        else allowed) allowed r := by
  rcases r with ⟨sub, auth, en, dis⟩
  rcases auth with _ | req <;> rcases sub with _ | subnet <;>
    simp [applyRule, ruleMatches, entryHits]

/-- Claim C1 as amended holds: for every rule list, peer, header and
command, `Acl::check` returns exactly the ordered fold described in
§4.3 with the credential test overwriting the subnet test and both
entry lists compared ASCII-case-insensitively; the empty rule list
yields true. -/
theorem aclCheck_eq_amended (rules : List AclRule) (ip : Nat)
    (command : List Nat) (authHeader : Option (List Nat)) :
    Acl.check ⟨rules⟩ ip command authHeader =
      aclCheckAmended rules ip command authHeader := by
  rw [Acl.check, aclCheckAmended]
  rcases hr : rules with _ | ⟨r0, rtl⟩
  · simp
  · simp only [if_neg (by simp : ¬(r0 :: rtl = []))]
    have hstep := funext fun allowed => funext fun r =>
      applyRule_amended ip authHeader command allowed r
    rw [hstep]

/-- Output formats (src/format.rs `OutputFormat`). -/
inductive OutputFormat
  | Json
  | Raw
  | MessagePack
deriving DecidableEq, Repr

/-- `OutputFormat::from_extension` (src/format.rs lines 16-22). -/
def OutputFormat.from_extension (ext : String) : OutputFormat :=
  if ext = "raw" then OutputFormat.Raw
  else if ext = "msg" ∨ ext = "msgpack" then OutputFormat.MessagePack
  else OutputFormat.Json

/-- Structured values as produced by `redis_value_to_json`
(src/handler.rs lines 166-177): the subset of `serde_json::Value`
reachable from a backend reply (objects never arise there). Strings
carry their UTF-8 bytes. -/
inductive JVal
  | jnull
  | jbool (b : Bool)
  | jnum (n : Int)
  | jstr (s : List Nat)
  | jarr (xs : List JVal)

/-- Typed backend replies (`deadpool_redis::redis::Value`, the variants
matched by `redis_value_to_json`). -/
inductive RedisValue
  | nil
  | int (i : Int)
  | data (bytes : List Nat)
  | bulk (items : List RedisValue)
  | status (s : String)
  | okay

mutual

/-- `redis_value_to_json` (src/handler.rs lines 166-177): `Nil` to
null, `Int` to number, `Data` to a lossy-UTF-8 string, `Bulk` to an
array, `Status` to its string, `Okay` to the string `OK`. -/
def redisValueToJson : RedisValue → JVal
  | .nil => .jnull
  | .int i => .jnum i
  | .data bytes => .jstr (utf8Lossy bytes)
  | .bulk items => .jarr (redisListToJson items)
  | .status s => .jstr (strBytes s)
  | .okay => .jstr (strBytes "OK")

/-- Elementwise image of `redis_value_to_json` over a `Bulk` reply. -/
def redisListToJson : List RedisValue → List JVal
  | [] => []
  | x :: xs => redisValueToJson x :: redisListToJson xs

end

/-- The per-element conversion used inside the RAW array arm
(src/format.rs lines 47-55): scalars take their lexical form, anything
else (null or a nested array) becomes the empty string. -/
def rawElement : JVal → List Nat
  | .jstr s => s
  | .jnum n => strBytes (toString n)
  | .jbool b => strBytes (if b then "true" else "false")
  | _ => []

/-- Body of the RAW output arm of `OutputFormat::format_response`
(src/format.rs lines 40-59): scalars lexically, null as the empty
body, arrays joined with a newline after the per-element conversion.
The final catch-all for objects cannot be reached from
`redis_value_to_json` output and is omitted. -/
def rawRender : JVal → List Nat
  | .jstr s => s
  | .jnum n => strBytes (toString n)
  | .jbool b => strBytes (if b then "true" else "false")
  | .jnull => []
  | .jarr xs => List.intercalate [10] (xs.map rawElement)

/-- The RAW arm of `format_response` (src/format.rs lines 40-64):
content type `text/plain` with the rendered body. -/
def formatResponseRaw (value : JVal) : String × List Nat :=
  ("text/plain", rawRender value)

/-- Pool-relevant configuration (src/config.rs `Config`, the fields
`create_pool` reads). -/
structure AppConfig where
  redis_host : String
  redis_port : Nat
  database : Nat
  pool_size_per_thread : Option Nat
  http_threads : Option Nat
  sslEnabled : Option Bool
deriving DecidableEq, Repr

/-- What `create_pool` configures: the connection URL and the pool
capacity. -/
structure PoolSettings where
  url : String
  size : Nat
deriving DecidableEq, Repr

/-- `create_pool` (src/redis.rs lines 6-23): scheme `rediss` when TLS
is enabled, URL `scheme://host:port/db`, and capacity
`pool_size_per_thread.unwrap_or(10) * http_threads.unwrap_or(4)`. -/
def create_pool (config : AppConfig) : PoolSettings :=
  let scheme := if (config.sslEnabled.getD false) then "rediss" else "redis"
  { url := scheme ++ "://" ++ config.redis_host ++ ":" ++
      toString config.redis_port ++ "/" ++ toString config.database
    size := (config.pool_size_per_thread.getD 10) * (config.http_threads.getD 4) }

/-- Claim C8 is refuted: under RAW output the nested array inside
`[["a","b"],"c"]` is not collapsed one level; it contributes an empty
string, so the body is `"\nc"` rather than `"a\nb\nc"`. -/
theorem rawFormat_counterexample :
    rawRender (.jarr [.jarr [.jstr (strBytes "a"), .jstr (strBytes "b")],
        .jstr (strBytes "c")])
      = strBytes "\nc"
    ∧ strBytes "\nc" ≠ strBytes "a\nb\nc" :=
  ⟨rfl, by decide⟩

/-- Claim C8 as amended holds: under RAW output a string, number or
bool is emitted in its lexical form and null produces an empty body;
an array is emitted as its elements joined with newline where each
element contributes its lexical form when it is a scalar and the empty
string otherwise (a nested array or null is dropped, not collapsed);
and the content type is `text/plain`. -/
theorem rawFormat_amended :
    (∀ s, rawRender (.jstr s) = s)
    ∧ (∀ n, rawRender (.jnum n) = strBytes (toString n))
    ∧ (∀ b, rawRender (.jbool b) = strBytes (if b then "true" else "false"))
    ∧ rawRender .jnull = []
    ∧ (∀ xs, rawRender (.jarr xs) = List.intercalate [10] (xs.map rawElement))
    ∧ (∀ xs, rawElement (.jarr xs) = []) ∧ rawElement .jnull = []
    ∧ (∀ v, (formatResponseRaw v).1 = "text/plain"
        ∧ (formatResponseRaw v).2 = rawRender v) :=
  ⟨fun _ => rfl, fun _ => rfl, fun _ => rfl, rfl, fun _ => rfl,
    fun _ => rfl, rfl, fun _ => ⟨rfl, rfl⟩⟩

/-- Claim C9 holds: the pool is created with capacity
`pool_size_per_thread * http_threads`, the factors defaulting to 10
and 4 when the options are absent, so the all-default capacity is
40. -/
theorem pool_capacity (c : AppConfig) :
    (create_pool c).size =
      (c.pool_size_per_thread.getD 10) * (c.http_threads.getD 4)
    ∧ (create_pool ⟨"127.0.0.1", 6379, 0, none, none, none⟩).size = 40 :=
  ⟨rfl, rfl⟩

/-- Rust `str::split` on a separator character, over the character
list: always yields at least one (possibly empty) segment. -/
def splitChars (sep : Char) : List Char → List (List Char)
  | [] => [[]]
  | c :: rest =>
    if c = sep then [] :: splitChars sep rest
    else
      match splitChars sep rest with
      | g :: gs => (c :: g) :: gs
      | [] => [[c]]

/-- Rust `str::split` at the string level. -/
def splitOnChar (sep : Char) (s : String) : List String :=
  (splitChars sep s.data).map (fun l => String.mk l)

/-- The segment list of a split is never empty. -/
theorem splitChars_ne_nil (sep : Char) : ∀ l : List Char, splitChars sep l ≠ [] := by
  intro l
  induction l with
  | nil => simp [splitChars]
  | cons c rest ih =>
    rw [splitChars]
    split
    · simp
    · rcases h : splitChars sep rest with _ | ⟨g, gs⟩
      · exact absurd h ih
      · simp [h]

/-- Rust `str::split` never yields an empty segment list, so a
`Vec::is_empty` test on it can never succeed. -/
theorem splitOnChar_ne_nil (sep : Char) (s : String) : splitOnChar sep s ≠ [] := by
  simp [splitOnChar, splitChars_ne_nil]

/-- Split a string at its LAST dot, as `str::rfind('.')` plus slicing
does in `process_request`: `some (before, after)` when a dot exists. -/
def lastDotSplit : List Char → Option (List Char × List Char)
  | [] => none
  | c :: rest =>
    match lastDotSplit rest with
    | some (pre, ext) => some (c :: pre, ext)
    | none => if c = Char.ofNat 46 then some ([], rest) else none

/-- Outcome of `process_request` (src/handler.rs lines 66-164), up to
and including the decision to issue the backend command. -/
inductive HandlerOutcome
  | resp503
  | resp400Empty
  | resp403
  | issued (cmdName : String) (args : List (List Nat)) (format : OutputFormat)
deriving DecidableEq, Repr

/-- The extension-resolution block of `process_request` (src/handler.rs
lines 94-115): a dot in the command segment always strips and selects
the format; otherwise a dot suffix of the last argument is stripped
only when it names a known non-JSON format or is literally `json`. -/
def parsePath (p0 : String) (restArgs : List String) :
    String × List String × OutputFormat :=
  match lastDotSplit p0.data with
  | some (pre, ext) =>
    (String.mk pre, restArgs, OutputFormat.from_extension (String.mk ext))
  | none =>
    match restArgs.getLast? with
    | some la =>
      match lastDotSplit la.data with
      | some (pre, ext) =>
        let f := OutputFormat.from_extension (String.mk ext)
        if f ≠ OutputFormat.Json ∨ String.mk ext = "json" then
          (p0, restArgs.dropLast ++ [String.mk pre], f)
        else (p0, restArgs, OutputFormat.Json)
      | none => (p0, restArgs, OutputFormat.Json)
    | none => (p0, restArgs, OutputFormat.Json)

/-- `process_request` (src/handler.rs lines 66-164) as a function of
the wildcard-captured command path, the `type` query parameter, the
optional request body, whether the pool lease succeeds, and the ACL
verdict per command name (the handler consults `state.acl.check` with
the peer address; its boolean verdict is abstracted as `aclAllows`).
Follows the code's order: lease, split on `/`, dead `is_empty` guard,
extension resolution, `type` override, body append via
`String::from_utf8_lossy`, ACL, issue. -/
def processRequest (command : String) (typeParam : Option String)
    (body : Option (List Nat)) (poolOk : Bool)
    (aclAllows : String → Bool) : HandlerOutcome :=
  if !poolOk then .resp503
  else
    match splitOnChar (Char.ofNat 47) command with
    | [] => .resp400Empty
    | p0 :: restArgs =>
      let parsed := parsePath p0 restArgs
      let fmt := match typeParam with
        | some t => OutputFormat.from_extension t
        | none => parsed.2.2
      let argsB := (parsed.2.1).map strBytes
      let argsB2 := match body with
        | some bs => if bs = [] then argsB else argsB ++ [utf8Lossy bs]
        | none => argsB
      if !aclAllows parsed.1 then .resp403
      else .issued parsed.1 argsB2 fmt

/-- Claim C6 fails on the code: Rust `split` never returns an empty
vector, so the `parts.is_empty()` guard in `process_request` is dead;
a request whose parsed command name is empty (wildcard capture
`/GET/k`, as produced by the URI `//GET/k`) is not answered with 400
and a backend command with an empty name is issued. -/
theorem emptyCommand_bug :
    (∀ s : String, splitOnChar (Char.ofNat 47) s ≠ [])
    ∧ processRequest "/GET/k" none none true (fun _ => true)
      = .issued "" [strBytes "GET", strBytes "k"] .Json :=
  ⟨fun s => splitOnChar_ne_nil (Char.ofNat 47) s, by decide⟩

/-- Claim C7 is refuted: a POST body consisting of the single byte
0xFF is not appended verbatim; `String::from_utf8_lossy` turns it into
the three UTF-8 bytes of U+FFFD. -/
theorem bodyAppend_counterexample :
    processRequest "SET/k" none (some [0xFF]) true (fun _ => true)
      = .issued "SET" [strBytes "k", [0xEF, 0xBF, 0xBD]] .Json
    ∧ ([0xEF, 0xBF, 0xBD] : List Nat) ≠ [0xFF] :=
  ⟨by decide, by decide⟩

/-- Claim C7 as amended holds: a non-empty POST/PUT body is appended
as the final backend argument after lossy UTF-8 conversion, which is
byte-for-byte identity exactly when the body is valid UTF-8. -/
theorem bodyAppend_amended (command : String) (tp : Option String)
    (bs : List Nat) (poolOk : Bool) (acl : String → Bool) (hne : bs ≠ [])
    (n : String) (a : List (List Nat)) (f : OutputFormat)
    (h : processRequest command tp (some bs) poolOk acl = .issued n a f) :
    a.getLast? = some (utf8Lossy bs)
    ∧ (validUtf8 bs = true → a.getLast? = some bs) := by
  rw [processRequest] at h
  split at h
  · cases h
  · split at h
    · cases h
    · rename_i p0 restArgs
      simp only [if_neg hne] at h
      split at h
      · cases h
      · injection h with h1 h2 h3
        subst h2
        refine ⟨List.getLast?_concat _, fun hv => ?_⟩
        rw [utf8Lossy_of_valid bs hv] at *
        exact List.getLast?_concat _

/-- The amended claim C7 at a concrete input: the two-byte ASCII body
`hi` on `POST /SET/k` is appended unchanged as the final argument. -/
theorem bodyAppend_amended_witness :
    ([104, 105] : List Nat) ≠ []
    ∧ ([strBytes "k", [104, 105]] : List (List Nat)).getLast?
        = some (utf8Lossy [104, 105])
    ∧ (validUtf8 [104, 105] = true →
        ([strBytes "k", [104, 105]] : List (List Nat)).getLast?
          = some [104, 105]) := by
  refine ⟨by decide, ?_⟩
  exact bodyAppend_amended "SET/k" none [104, 105] true (fun _ => true)
    (by decide) "SET" [strBytes "k", [104, 105]] OutputFormat.Json (by decide)

/-- The pub/sub control commands (src/pubsub.rs `enum Command`, lines
19-22): only `Subscribe` exists; the `Unsubscribe` variant is
commented out in the source. -/
inductive PubSubCmd
  | subscribe (ch : String)
deriving DecidableEq, Repr

/-- Observable state of the pub/sub subsystem: the registry with a
live-receiver count per channel, the queued control commands, the full
history of commands ever sent on the control channel, the channels
subscribed on the current upstream connection, and whether an upstream
connection exists. -/
structure PubSubState where
  registry : List (String × Nat)
  pending : List PubSubCmd
  sent : List PubSubCmd
  upstream : List String
  connected : Bool
deriving DecidableEq, Repr

/-- Events of the pub/sub subsystem, each the entry point of a code
path in src/pubsub.rs. -/
inductive PubSubEvent
  | localSubscribe (ch : String)
  | receiverDrop (ch : String)
  | connect
  | drainCommands
  | streamEnd
deriving DecidableEq, Repr

/-- Whether a channel is present in the registry map. -/
def regHas (reg : List (String × Nat)) (ch : String) : Bool :=
  reg.any (fun p => p.1 == ch)

/-- Add one receiver to a channel's count. -/
def regIncr (reg : List (String × Nat)) (ch : String) : List (String × Nat) :=
  reg.map (fun p => if p.1 == ch then (p.1, p.2 + 1) else p)

/-- Remove one receiver from a channel's count. -/
def regDecr (reg : List (String × Nat)) (ch : String) : List (String × Nat) :=
  reg.map (fun p => if p.1 == ch then (p.1, p.2 - 1) else p)

/-- One transition of the pub/sub subsystem, translated from
src/pubsub.rs:

* `localSubscribe ch` — `PubSubManager::subscribe` (lines 101-111):
  an existing entry just gains a receiver; otherwise the entry is
  inserted and `Subscribe(ch)` is sent on the control channel.
* `receiverDrop ch` — a local broadcast receiver is dropped; the code
  installs no drop hook, so only the live count changes: the entry is
  never removed and nothing is sent.
* `connect` — the background task obtains a fresh upstream connection
  (lines 33-43): the new connection starts with no subscriptions and
  the code does not re-subscribe registry channels.
* `drainCommands` — the `try_recv` drain (lines 47-57): every pending
  `Subscribe` is issued on the upstream connection.
* `streamEnd` — the upstream stream terminates (lines 84-87): the
  inner loop breaks, dropping the connection and its subscriptions;
  the registry is retained. -/
def PubSubState.step (s : PubSubState) : PubSubEvent → PubSubState
  | .localSubscribe ch =>
    if regHas s.registry ch then { s with registry := regIncr s.registry ch }
    else
      { s with
        registry := s.registry ++ [(ch, 1)]
        pending := s.pending ++ [.subscribe ch]
        sent := s.sent ++ [.subscribe ch] }
  | .receiverDrop ch => { s with registry := regDecr s.registry ch }
  | .connect => { s with connected := true, upstream := [] }
  | .drainCommands =>
    if s.connected then
      { s with
        upstream := s.upstream ++ s.pending.map (fun c => match c with
          | .subscribe ch => ch)
        pending := [] }
    else s
  | .streamEnd => { s with connected := false, upstream := [] }

/-- Initial pub/sub state (`PubSubManager::new` before the background
task connects). -/
def pubSubInit : PubSubState := ⟨[], [], [], [], false⟩

/-- Run the pub/sub subsystem over a sequence of events. -/
def pubSubRun (evs : List PubSubEvent) : PubSubState :=
  evs.foldl PubSubState.step pubSubInit

/-- Channels with at least one local subscriber. -/
def channelsWithSubscribers (s : PubSubState) : List String :=
  (s.registry.filter (fun p => 0 < p.2)).map Prod.fst

/-- A channel once present in the registry is present after any
further event: the code has no removal path. -/
theorem registry_monotone (s : PubSubState) (e : PubSubEvent) (ch : String)
    (h : regHas s.registry ch = true) :
    regHas (s.step e).registry ch = true := by
  cases e with
  | localSubscribe c =>
    rw [PubSubState.step]
    split
    · simp only [regHas, regIncr, List.any_map] at h ⊢
      rcases List.any_eq_true.mp h with ⟨p, hp, heq⟩
      refine List.any_eq_true.mpr ⟨p, hp, ?_⟩
      simp only [Function.comp]
      split <;> simp_all
    · simp only [regHas, List.any_append] at h ⊢
      simp [h]
  | receiverDrop c =>
    rw [PubSubState.step]
    simp only [regHas, regDecr, List.any_map] at h ⊢
    rcases List.any_eq_true.mp h with ⟨p, hp, heq⟩
    refine List.any_eq_true.mpr ⟨p, hp, ?_⟩
    simp only [Function.comp]
    split <;> simp_all
  | connect => exact h
  | drainCommands =>
    rw [PubSubState.step]
    split <;> exact h
  | streamEnd => exact h

/-- Claim C3 fails on the code: after subscribe, connect and drain the
channel is subscribed upstream, but when the upstream stream ends and
the background task reconnects, the fresh connection subscribes to
nothing — the registry still holds a channel with a local subscriber
while the upstream set is empty and no subscribe command is pending,
refuting both the superset invariant and re-subscription on
reconnect. -/
theorem upstream_resubscribe_bug :
    (pubSubRun [.localSubscribe "ch", .connect, .drainCommands]).upstream = ["ch"]
    ∧ channelsWithSubscribers (pubSubRun [.localSubscribe "ch", .connect,
        .drainCommands, .streamEnd, .connect, .drainCommands]) = ["ch"]
    ∧ (pubSubRun [.localSubscribe "ch", .connect, .drainCommands, .streamEnd,
        .connect, .drainCommands]).upstream = []
    ∧ (pubSubRun [.localSubscribe "ch", .connect, .drainCommands, .streamEnd,
        .connect, .drainCommands]).pending = []
    ∧ (pubSubRun [.localSubscribe "ch", .connect, .drainCommands, .streamEnd,
        .connect, .drainCommands]).connected = true := by
  refine ⟨by decide, by decide, by decide, by decide, by decide⟩

/-- Claim C4 fails on the code: after the last receiver of channel
`ch` is dropped, the registry entry persists (with count 0) and the
only command ever sent on the control channel is the original
`Subscribe`; indeed the control-command type has no `Unsubscribe`
variant at all (it is commented out in the source), so no removal can
ever be requested. -/
theorem pubsub_noUnsubscribe_bug :
    (pubSubRun [.localSubscribe "ch", .receiverDrop "ch"]).registry = [("ch", 0)]
    ∧ (pubSubRun [.localSubscribe "ch", .receiverDrop "ch"]).sent
        = [.subscribe "ch"]
    ∧ ∀ c : PubSubCmd, ∃ ch, c = .subscribe ch := by
  refine ⟨by decide, by decide, fun c => ?_⟩
  cases c with
  | subscribe ch => exact ⟨ch, rfl⟩

/-- Lowercase hex digit of a nibble, as `serde_json` writes control
escapes. -/
def hexDigitByte (d : Nat) : Nat :=
  if d < 10 then 48 + d else 87 + d

/-- JSON string escaping of one byte, as `serde_json` performs it:
quote and backslash escaped, the named control escapes, `\u00XX` for
the remaining control bytes, everything else copied. -/
def escapeJsonByte (b : Nat) : List Nat :=
  if b = 34 then [92, 34]
  else if b = 92 then [92, 92]
  else if b = 8 then [92, 98]
  else if b = 9 then [92, 116]
  else if b = 10 then [92, 110]
  else if b = 12 then [92, 102]
  else if b = 13 then [92, 114]
  else if b < 32 then [92, 117, 48, 48, hexDigitByte (b / 16), hexDigitByte (b % 16)]
  else [b]

/-- JSON rendering of a string value from its UTF-8 bytes. -/
def jsonStringBytes (s : List Nat) : List Nat :=
  [34] ++ s.flatMap escapeJsonByte ++ [34]

/-- Bytes of a one-entry JSON object, the shape `serde_json::json!`
produces for every frame the WebSocket handler sends. -/
def jsonObjBytes (key : String) (valRendered : List Nat) : List Nat :=
  [123] ++ jsonStringBytes (strBytes key) ++ [58] ++ valRendered ++ [125]

/-- The in-band error frame sent when a pool lease fails
(src/websocket.rs lines 88-98). -/
def svcUnavailableFrame : List Nat :=
  jsonObjBytes "error" (jsonStringBytes (strBytes "Service Unavailable"))

/-- The frame the pub/sub forward task sends for a payload
(src/websocket.rs lines 62-84): `serde_json::json!` of an object with
the single key `message` and the payload as its value. -/
def wsPubSubFrame (payload : List Nat) : List Nat :=
  jsonObjBytes "message" (jsonStringBytes payload)

/-- Rust `str::eq_ignore_ascii_case` on strings. -/
def strEqIgnoreCase (a b : String) : Bool :=
  eqIgnoreAsciiCase (strBytes a) (strBytes b)

/-- An inbound WebSocket message as the handler loop sees it
(src/websocket.rs lines 32-40): a text frame carries the result of the
`serde_json::from_str::<Vec<String>>` parse of its payload (the JSON
parse itself is a library call, modelled by its result), a binary
frame is ignored, and a receiver error means the client
disconnected. -/
inductive WsIn
  | text (parsed : Option (List String))
  | binary
  | errFrame

/-- Result of running one backend command on the leased connection
(the `query_async` call, modelled as an oracle). -/
inductive RedisResult
  | ok (v : JVal)
  | err (msg : List Nat)

/-- Observable actions of the WebSocket frame handler. -/
inductive WsAct
  | sendFrame (bytes : List Nat)
  | sendReply (cmd : String) (result : RedisResult)
  | spawnSubscribe (ch : String)
  | issue (cmd : String) (args : List String)

/-- Handling of one inbound message by `handle_socket`
(src/websocket.rs lines 32-122): the actions performed and whether the
receive loop continues. No ACL evaluation occurs on this path (the
source comment reads `For now, skipping ACL check for WS`). A
`SUBSCRIBE` frame spawns a forward task for its channel; any other
command frame leases a connection — on failure the handler sends the
service-unavailable frame and continues — and issues the command,
sending a reply frame built from the oracle's result. -/
def wsStep (poolOk : Bool) (redisExec : String → List String → RedisResult) :
    WsIn → List WsAct × Bool
  | .errFrame => ([], false)
  | .binary => ([], true)
  | .text none => ([], true)
  | .text (some []) => ([], true)
  | .text (some (c :: args)) =>
    if strEqIgnoreCase c "SUBSCRIBE" then
      match args with
      | [] => ([], true)
      | ch :: _ => ([.spawnSubscribe ch], true)
    else if poolOk then
      ([.issue c args, .sendReply c (redisExec c args)], true)
    else ([.sendFrame svcUnavailableFrame], true)

/-- The receive loop of `handle_socket` over a message sequence, with
pool-lease availability sampled per message index. -/
def wsRun (pool : Nat → Bool) (redisExec : String → List String → RedisResult)
    (i : Nat) : List WsIn → List WsAct
  | [] => []
  | f :: rest =>
    let step := wsStep (pool i) redisExec f
    if step.2 then step.1 ++ wsRun pool redisExec (i + 1) rest else step.1

/-- The pub/sub forward task spawned for a `SUBSCRIBE` frame
(src/websocket.rs lines 62-84): each successfully received payload is
sent as a frame; any receive error (lagged or closed) breaks the
loop. -/
inductive RecvEvent
  | ok (payload : List Nat)
  | lagged
  | closed

/-- Frames the forward task sends for a sequence of receive results. -/
def wsForward : List RecvEvent → List (List Nat)
  | [] => []
  | .ok p :: rest => wsPubSubFrame p :: wsForward rest
  | .lagged :: _ => []
  | .closed :: _ => []

/-- Claim C2 fails on the code: the WebSocket frame handler evaluates
no ACL at all. Under an ACL whose single rule disables every command,
the evaluator denies `GET`, yet the handler issues the command frame
`[GET, k]` to the backend unconditionally (the handler has no ACL
input; the source comment reads `skipping ACL check for WS`). -/
theorem ws_acl_skipped :
    Acl.check ⟨[⟨none, none, [], [strBytes "*"]⟩]⟩ 0 (strBytes "GET") none = false
    ∧ wsRun (fun _ => true) (fun _ _ => .ok .jnull) 0
        [WsIn.text (some ["GET", "k"])]
      = [WsAct.issue "GET" ["k"], WsAct.sendReply "GET" (.ok .jnull)] :=
  ⟨by decide, rfl⟩

/-- Claim C5 is refuted: the frame delivered for payload `hi` on
channel `ch` after a `SUBSCRIBE` is the object with single key
`message` and the payload as value, not the claimed
`SUBSCRIBE`-keyed three-element array. -/
theorem wsSubscribeFrame_counterexample :
    wsPubSubFrame (strBytes "hi") = strBytes "\x7b\"message\":\"hi\"\x7d"
    ∧ wsPubSubFrame (strBytes "hi")
      ≠ strBytes "\x7b\"SUBSCRIBE\":[\"message\",\"ch\",\"hi\"]\x7d" :=
  ⟨by decide, by decide⟩

/-- Claim C5 as amended holds: a `SUBSCRIBE` frame attaches a forward
task for the channel, and that task delivers every received payload p
as the JSON text frame with the single key `message` and value p — the
command name and the channel are not included in the frame. -/
theorem wsSubscribeFrame_amended :
    (∀ (pool : Nat → Bool) (rex : String → List String → RedisResult)
        (i : Nat) (ch : String) (tl : List String) (rest : List WsIn),
      wsRun pool rex i (WsIn.text (some ("SUBSCRIBE" :: ch :: tl)) :: rest)
        = WsAct.spawnSubscribe ch :: wsRun pool rex (i + 1) rest)
    ∧ ∀ ps : List (List Nat),
        wsForward (ps.map RecvEvent.ok) = ps.map wsPubSubFrame := by
  constructor
  · intro pool rex i ch tl rest
    rfl
  · intro ps
    induction ps with
    | nil => rfl
    | cons p rest ih => simp [wsForward, ih]

/-- Claim C10 holds: when leasing a pool connection fails for a
non-`SUBSCRIBE` command frame, the handler sends the in-band
`Service Unavailable` JSON error frame on the socket and continues
with the remaining messages; the connection is not closed. -/
theorem ws_leaseFailure_inband (pool : Nat → Bool)
    (rex : String → List String → RedisResult) (i : Nat) (c : String)
    (args : List String) (rest : List WsIn)
    (hns : strEqIgnoreCase c "SUBSCRIBE" = false) (hpf : pool i = false) :
    wsRun pool rex i (WsIn.text (some (c :: args)) :: rest)
      = WsAct.sendFrame svcUnavailableFrame :: wsRun pool rex (i + 1) rest
    ∧ svcUnavailableFrame = strBytes "\x7b\"error\":\"Service Unavailable\"\x7d" := by
  constructor
  · rw [wsRun]
    simp [wsStep, hns, hpf]
  · decide

/-- Claim C10 at a concrete input: with the pool exhausted, the frame
`[GET, k]` produces exactly the service-unavailable frame and the
following `[PING]` frame is still processed. -/
theorem ws_leaseFailure_inband_witness :
    wsRun (fun _ => false) (fun _ _ => RedisResult.ok .jnull) 0
        [WsIn.text (some ["GET", "k"]), WsIn.text (some ["PING"])]
      = WsAct.sendFrame svcUnavailableFrame
        :: wsRun (fun _ => false) (fun _ _ => RedisResult.ok .jnull) 1
          [WsIn.text (some ["PING"])]
    ∧ svcUnavailableFrame = strBytes "\x7b\"error\":\"Service Unavailable\"\x7d" :=
  ws_leaseFailure_inband (fun _ => false) (fun _ _ => RedisResult.ok .jnull) 0
    "GET" ["k"] [WsIn.text (some ["PING"])] (by decide) rfl

end Webdis
